import Mathlib

/-!
Shallow embedding of the batch scheduling and resilience core of the
Amazon price tracker (src/index.js, class AmazonPriceTracker).

Conventions of the embedding:
  * JS numbers used as prices are modelled as rationals; `parseFloat`
    returning NaN is modelled as `none`.
  * The HTTP fetch plus cheerio field extraction of one attempt is
    modelled by an oracle `Nat → FetchOutcome` giving, for each retry
    count, either a thrown error (network failure, timeout, non-2xx) or
    a served page abstracted to the extracted title and the price text
    selected by the CSS selectors (none when no selector matched).
  * Durable effects (fs.writeFile of prices.json and progress.json) are
    recorded in the batch output instead of performed, and the Telegram
    notifier is recorded as a log of notification events whose
    `sendFailed` flag models a caught bot.sendMessage rejection.
  * Timestamps (new Date().toISOString()) are an opaque `Nat` supplied
    by the environment.
-/

/-- Configuration constants of src/index.js (CONFIG object, lines 9-29);
only the fields the batch core reads are kept. -/
structure Config where
  batchSize : Nat
  maxRetries : Nat

/-- CONFIG from src/index.js: batchSize 3, maxRetries 3. -/
def CONFIG : Config := { batchSize := 3, maxRetries := 3 }

/-- Outcome of one fetch attempt, as observed by parseAmazonPage: either
axios threw (network error, timeout, non-2xx after maxRedirects), or a
page was served, abstracted to the title text and the price text found
by the selector cascade (none when no selector produced a non-empty
text, the "No price found" case of line 248). -/
inductive FetchOutcome where
  | err : FetchOutcome
  | page : Option String → String → FetchOutcome
deriving DecidableEq

/-- Observation record returned by a successful parseAmazonPage
(src/index.js lines 267-273). -/
structure Observation where
  url : String
  title : String
  price : ℚ
  currency : String
  timestamp : Nat
deriving DecidableEq

/-- Result of one parseAmazonPage call, instrumented with the number of
fetch attempts performed (stats.totalRequests increments) and the total
backoff milliseconds slept between attempts. -/
structure ParseResult where
  result : Option Observation
  attempts : Nat
  waited : Nat
deriving DecidableEq

/-- Numeric value of a digit string, most significant digit first. -/
def digitsVal (cs : List Char) : Nat :=
  cs.foldl (fun a c => a * 10 + (c.toNat - 48)) 0

/-- JS String.prototype.replace with a plain string pattern replaces only
the first occurrence: model of priceText.replace(",", ".") on the
character list (src/index.js line 254). -/
def replaceFirstComma : List Char → List Char
  | [] => []
  | c :: cs => if c = ',' then '.' :: cs else c :: replaceFirstComma cs

/-- Model of priceText.replace(/[^\d,]/g, "").replace(",", ".")
(src/index.js line 254): keep only digits and commas, then turn the
first comma into a decimal dot. -/
def cleanPriceChars (s : String) : List Char :=
  replaceFirstComma (s.data.filter (fun c => c.isDigit || c = ','))

/-- Model of JS parseFloat on a string made of digits, at most one dot
and possibly further commas: parse the longest valid numeric prefix
(integer part, optional dot, fraction part); none models NaN (no digits
before or after a leading dot). -/
def jsParseFloat (cs : List Char) : Option ℚ :=
  let ip := cs.takeWhile Char.isDigit
  let rest := cs.dropWhile Char.isDigit
  let fp := if rest.head? = some '.' then rest.tail.takeWhile Char.isDigit else []
  if ip.isEmpty && fp.isEmpty then none
  else some ((digitsVal ip : ℚ) + (digitsVal fp : ℚ) / (10 : ℚ) ^ fp.length)

/-- Extraction stage of parseAmazonPage on a served page (src/index.js
lines 216-273): no price text means null (line 250); otherwise the text
is cleaned and parsed, and NaN or a non-positive value also yields null
(line 257); a positive price yields the Observation. -/
def extractObservation (url title : String) (priceText : Option String) (now : Nat) :
    Option Observation :=
  match priceText with
  | none => none
  | some s =>
    match jsParseFloat (cleanPriceChars s) with
    | none => none
    | some p => if p ≤ 0 then none else some ⟨url, title, p, "PLN", now⟩

/-- Recursion core of parseAmazonPage. The gas argument is the number of
retries still allowed, kept equal to CONFIG.maxRetries - retryCount by
the wrapper, so that `0 < gas` is exactly the source test
`retryCount < CONFIG.maxRetries` (src/index.js line 277); making it the
structural recursion argument lets concrete runs evaluate by rfl.
On a thrown error with retries left the code sleeps
Math.pow(2, retryCount) * 5000 ms and recurses with retryCount + 1
(lines 278-281); with no retries left it returns null (line 286). -/
def parseAttempt (url : String) (oracle : Nat → FetchOutcome) (now : Nat) :
    Nat → Nat → ParseResult
  | 0, retryCount =>
    match oracle retryCount with
    | FetchOutcome.page priceText title =>
      { result := extractObservation url title priceText now, attempts := 1, waited := 0 }
    | FetchOutcome.err => { result := none, attempts := 1, waited := 0 }
  | Nat.succ g, retryCount =>
    match oracle retryCount with
    | FetchOutcome.page priceText title =>
      { result := extractObservation url title priceText now, attempts := 1, waited := 0 }
    | FetchOutcome.err =>
      let r := parseAttempt url oracle now g (retryCount + 1)
      { result := r.result, attempts := r.attempts + 1,
        waited := 2 ^ retryCount * 5000 + r.waited }

/-- parseAmazonPage(url, retryCount) of src/index.js lines 195-288, with
the fetch behaviour abstracted into the oracle. -/
def parseAmazonPage (url : String) (oracle : Nat → FetchOutcome) (now : Nat)
    (retryCount : Nat) : ParseResult :=
  parseAttempt url oracle now (CONFIG.maxRetries - retryCount) retryCount

/-- PriceStore: the in-memory this.prices object, an association of
tracked URL to its latest Observation (insertion order kept, one entry
per key). -/
def Store : Type := List (String × Observation)

instance : DecidableEq Store := by
  unfold Store
  infer_instance

/-- Lookup of this.prices[url]. -/
def Store.lookup : Store → String → Option Observation
  | [], _ => none
  | (k, v) :: rest, u => if k = u then some v else Store.lookup rest u

/-- Assignment this.prices[url] = bookData: replace the entry when the
key is present, append it otherwise. -/
def Store.insert : Store → String → Observation → Store
  | [], u, o => [(u, o)]
  | (k, v) :: rest, u, o =>
    if k = u then (k, o) :: rest else (k, v) :: Store.insert rest u o

/-- Record of one sendPriceDropNotification invocation (src/index.js
lines 291-312); sendFailed models a rejected bot.sendMessage, which the
function catches and only logs. -/
structure NotifyEvent where
  url : String
  oldPrice : ℚ
  newPrice : ℚ
  sendFailed : Bool
deriving DecidableEq

/-- Body of the per-item part of the batch loop after parseAmazonPage
returned (src/index.js lines 352-381): a null result skips the item; a
successful result is compared against the stored price — strictly lower
fires a notification and bumps stats.priceDropsFound — and the store
entry is then unconditionally overwritten. Returns the new store, the
new drop counter and the notification event, if one was sent. -/
def stepItem (prices : Store) (drops : Nat) (url : String)
    (parsed : Option Observation) (fails : Bool) :
    Store × Nat × Option NotifyEvent :=
  match parsed with
  | none => (prices, drops, none)
  | some obs =>
    match Store.lookup prices url with
    | some old =>
      if obs.price < old.price then
        (Store.insert prices url obs, drops + 1, some ⟨url, old.price, obs.price, fails⟩)
      else
        (Store.insert prices url obs, drops, none)
    | none => (Store.insert prices url obs, drops, none)

/-- The for-loop of processBatch over the index slice (src/index.js
lines 342-382), folding stepItem over the indices; nf tells, per
notification call, whether the Telegram send rejects. -/
def runItems (urls : List String) (fetch : Nat → Nat → FetchOutcome)
    (nf : Nat → Bool) (now : Nat) :
    List Nat → Store → Nat → List NotifyEvent → Store × Nat × List NotifyEvent
  | [], s, d, log => (s, d, log)
  | i :: rest, s, d, log =>
    let url := urls.getD i ""
    let parsed := (parseAmazonPage url (fetch i) now 0).result
    let out := stepItem s d url parsed (nf log.length)
    runItems urls fetch nf now rest out.1 out.2.1 (log ++ out.2.2.toList)

/-- JS content.split("\n") on the character list. -/
def splitNl : List Char → List (List Char)
  | [] => [[]]
  | c :: cs =>
    match splitNl cs with
    | [] => if c = '\n' then [[], []] else [[c]]
    | h :: t => if c = '\n' then [] :: h :: t else (c :: h) :: t

/-- Whitespace trimmed by JS String.prototype.trim, restricted to the
characters that can appear in a text line. -/
def isWsChar (c : Char) : Bool :=
  c = ' ' || c = '\t' || c = '\n' || c = '\r'

/-- JS line.trim() on the character list. -/
def trimChars (cs : List Char) : List Char :=
  ((cs.dropWhile isWsChar).reverse.dropWhile isWsChar).reverse

/-- JS line.startsWith("#"). -/
def startsWithHash : List Char → Bool
  | '#' :: _ => true
  | _ => false

/-- readBookUrls of src/index.js lines 154-165: on a read error the
catch block logs and returns an empty list (none models the failed
fs.readFile); otherwise split on newlines, trim each line, and keep the
non-empty lines not starting with "#". -/
def readBookUrls (books : Option String) : List String :=
  match books with
  | none => []
  | some content =>
    (((splitNl content.data).map trimChars).filter
      (fun l => !l.isEmpty && !startsWithHash l)).map (fun l => String.mk l)

/-- Inputs of one processBatch call supplied by the outside world:
books is the content of books.txt (none = read error), progress the
index loaded from progress.json (none = missing or unparsable file,
loadJSON fallback index 0), fetch the per-item per-retry fetch
outcomes, notifyFails whether the n-th Telegram send of the batch
rejects, and now the timestamp. -/
structure BatchEnv where
  books : Option String
  progress : Option Nat
  fetch : Nat → Nat → FetchOutcome
  notifyFails : Nat → Bool
  now : Nat

/-- Mutable tracker fields read and written by processBatch. -/
structure TrackerState where
  prices : Store
  drops : Nat
  isRunning : Bool
deriving DecidableEq

/-- Observable outcome of one processBatch call: the final in-memory
fields, whether books.txt was read, the contents written to prices.json
and progress.json (none = file not written), the notification events,
and the promise outcome (the outer try/catch of lines 406-410 turns
every error into a logged message, so the promise always resolves). -/
structure BatchOut where
  prices : Store
  drops : Nat
  isRunning : Bool
  listRead : Bool
  savedPrices : Option Store
  savedCursor : Option Nat
  notifyLog : List NotifyEvent
  result : Except String Unit

/-- Index slice [start, min (start + batchSize) len) processed by one
batch (src/index.js lines 333-334 and the loop bound of line 342). -/
def batchRange (len start : Nat) : List Nat :=
  List.range' start (min (start + CONFIG.batchSize) len - start)

/-- processBatch of src/index.js lines 315-411. The re-entrancy guard
returns at once when isRunning (lines 316-319); an empty URL list logs
and returns (lines 326-330); otherwise the slice is processed, the
prices are saved, and the cursor is saved as 0 when the slice reached
the end of the list, as endIndex otherwise (lines 385-395). -/
def processBatch (st : TrackerState) (env : BatchEnv) : BatchOut :=
  if st.isRunning then
    { prices := st.prices, drops := st.drops, isRunning := st.isRunning,
      listRead := false, savedPrices := none, savedCursor := none,
      notifyLog := [], result := Except.ok () }
  else
    let urls := readBookUrls env.books
    if urls.isEmpty then
      { prices := st.prices, drops := st.drops, isRunning := false,
        listRead := true, savedPrices := none, savedCursor := none,
        notifyLog := [], result := Except.ok () }
    else
      let startIndex := env.progress.getD 0
      let endIndex := min (startIndex + CONFIG.batchSize) urls.length
      let out := runItems urls env.fetch env.notifyFails env.now
        (batchRange urls.length startIndex) st.prices st.drops []
      { prices := out.1, drops := out.2.1, isRunning := false,
        listRead := true, savedPrices := some out.1,
        savedCursor := some (if urls.length ≤ endIndex then 0 else endIndex),
        notifyLog := out.2.2, result := Except.ok () }

/-- Cursor update rule of one batch (src/index.js lines 334 and
389-395), with the batch size as a parameter: endIndex is
min (start + b) n, and the persisted index is 0 when endIndex reached
the end of the list, endIndex otherwise. -/
def nextCursor (n b start : Nat) : Nat :=
  let e := min (start + b) n
  if n ≤ e then 0 else e

/-- Cursor value after k batches starting from a persisted index 0,
each batch applying the update rule of nextCursor. -/
def cursorIter (n b : Nat) : Nat → Nat
  | 0 => 0
  | k + 1 => nextCursor n b (cursorIter n b k)

/-- Durable file-system operations a persist can perform. -/
inductive FsOp where
  | writeFile : String → String → FsOp
  | rename : String → String → FsOp
deriving DecidableEq

/-- saveJSON of src/index.js lines 144-146: a single direct fs.writeFile
of the serialized data, with no temporary file and no rename. -/
def saveJSON (file : String) (contents : String) : List FsOp :=
  [FsOp.writeFile file contents]

/-- Contents a reader can find in the target file if the process crashes
around a saveJSON call: the old contents (crash before the write), or —
because fs.writeFile truncates and then writes the data — any prefix of
the new contents (crash during or after the write). -/
def saveJSONCrashStates (oldContents newContents : String) : List String :=
  oldContents ::
    (List.range (newContents.data.length + 1)).map
      (fun k => String.mk (newContents.data.take k))

/-! ### Lemmas about the store -/

theorem Store.lookup_insert_self (s : Store) (u : String) (o : Observation) :
    Store.lookup (Store.insert s u o) u = some o := by
  induction s with
  | nil => simp [Store.insert, Store.lookup]
  | cons kv rest ih =>
    obtain ⟨k, v⟩ := kv
    by_cases h : k = u
    · simp [Store.insert, Store.lookup, h]
    · simp [Store.insert, Store.lookup, h, ih]

theorem Store.lookup_insert_ne (s : Store) (u v : String) (o : Observation)
    (h : v ≠ u) : Store.lookup (Store.insert s u o) v = Store.lookup s v := by
  induction s with
  | nil =>
    have hne : ¬ (u = v) := fun hh => h hh.symm
    simp [Store.insert, Store.lookup, hne]
  | cons kv rest ih =>
    obtain ⟨k, w⟩ := kv
    by_cases hk : k = u
    · subst hk
      have hne : ¬ (k = v) := fun hh => h hh.symm
      simp [Store.insert, Store.lookup, hne]
    · simp [Store.insert, Store.lookup, hk, ih]

/-! ### Lemmas about the retrying fetch-and-extract -/

theorem parseAttempt_page (url t : String) (oracle : Nat → FetchOutcome) (now gas rc : Nat)
    (pt : Option String) (h : oracle rc = FetchOutcome.page pt t) :
    parseAttempt url oracle now gas rc =
      { result := extractObservation url t pt now, attempts := 1, waited := 0 } := by
  cases gas with
  | zero => simp [parseAttempt, h]
  | succ g => simp [parseAttempt, h]

theorem parseAttempt_err_zero (url : String) (oracle : Nat → FetchOutcome) (now rc : Nat)
    (h : oracle rc = FetchOutcome.err) :
    parseAttempt url oracle now 0 rc = { result := none, attempts := 1, waited := 0 } := by
  simp [parseAttempt, h]

theorem parseAttempt_err_succ (url : String) (oracle : Nat → FetchOutcome) (now g rc : Nat)
    (h : oracle rc = FetchOutcome.err) :
    parseAttempt url oracle now (g + 1) rc =
      { result := (parseAttempt url oracle now g (rc + 1)).result,
        attempts := (parseAttempt url oracle now g (rc + 1)).attempts + 1,
        waited := 2 ^ rc * 5000 + (parseAttempt url oracle now g (rc + 1)).waited } := by
  simp [parseAttempt, h]

theorem extractObservation_price_pos (url title : String) (pt : Option String) (now : Nat)
    (obs : Observation) (h : extractObservation url title pt now = some obs) :
    0 < obs.price := by
  cases pt with
  | none => simp [extractObservation] at h
  | some s =>
    simp only [extractObservation] at h
    cases hj : jsParseFloat (cleanPriceChars s) with
    | none => rw [hj] at h; simp at h
    | some p =>
      rw [hj] at h
      simp only [] at h
      by_cases hp : p ≤ 0
      · simp [hp] at h
      · rw [if_neg hp] at h
        have h2 := Option.some.inj h
        rw [← h2]
        exact lt_of_not_le hp

theorem parseAttempt_result_pos (url : String) (oracle : Nat → FetchOutcome) (now : Nat) :
    ∀ gas rc (obs : Observation),
      (parseAttempt url oracle now gas rc).result = some obs → 0 < obs.price := by
  intro gas
  induction gas with
  | zero =>
    intro rc obs h
    cases ho : oracle rc with
    | err => rw [parseAttempt_err_zero url oracle now rc ho] at h; simp at h
    | page pt t =>
      rw [parseAttempt_page url t oracle now 0 rc pt ho] at h
      exact extractObservation_price_pos url t pt now obs h
  | succ g ih =>
    intro rc obs h
    cases ho : oracle rc with
    | err =>
      rw [parseAttempt_err_succ url oracle now g rc ho] at h
      exact ih (rc + 1) obs h
    | page pt t =>
      rw [parseAttempt_page url t oracle now (g + 1) rc pt ho] at h
      exact extractObservation_price_pos url t pt now obs h

theorem parseAmazonPage_result_pos (url : String) (oracle : Nat → FetchOutcome)
    (now rc : Nat) (obs : Observation)
    (h : (parseAmazonPage url oracle now rc).result = some obs) : 0 < obs.price :=
  parseAttempt_result_pos url oracle now (CONFIG.maxRetries - rc) rc obs h

theorem parseAttempt_allErr (url : String) (oracle : Nat → FetchOutcome) (now : Nat)
    (hfail : ∀ k, oracle k = FetchOutcome.err) :
    ∀ gas rc, (parseAttempt url oracle now gas rc).result = none ∧
      (parseAttempt url oracle now gas rc).attempts = gas + 1 := by
  intro gas
  induction gas with
  | zero =>
    intro rc
    rw [parseAttempt_err_zero url oracle now rc (hfail rc)]
    exact ⟨rfl, rfl⟩
  | succ g ih =>
    intro rc
    rw [parseAttempt_err_succ url oracle now g rc (hfail rc)]
    exact ⟨(ih (rc + 1)).1, by rw [(ih (rc + 1)).2]⟩

/-! ### Lemmas about the per-item step -/

theorem stepItem_none (s : Store) (d : Nat) (url : String) (b : Bool) :
    stepItem s d url none b = (s, d, none) := rfl

theorem stepItem_lookup_self (s : Store) (d : Nat) (url : String) (obs : Observation)
    (b : Bool) : Store.lookup (stepItem s d url (some obs) b).1 url = some obs := by
  unfold stepItem
  cases Store.lookup s url with
  | none => simp [Store.lookup_insert_self]
  | some old =>
    by_cases hlt : obs.price < old.price
    · simp [hlt, Store.lookup_insert_self]
    · simp [hlt, Store.lookup_insert_self]

theorem stepItem_lookup_ne (s : Store) (d : Nat) (url v : String)
    (parsed : Option Observation) (b : Bool) (h : v ≠ url) :
    Store.lookup (stepItem s d url parsed b).1 v = Store.lookup s v := by
  cases parsed with
  | none => rfl
  | some obs =>
    unfold stepItem
    cases Store.lookup s url with
    | none => simp [Store.lookup_insert_ne s url v obs h]
    | some old =>
      by_cases hlt : obs.price < old.price
      · simp [hlt, Store.lookup_insert_ne s url v obs h]
      · simp [hlt, Store.lookup_insert_ne s url v obs h]

theorem stepItem_event (s : Store) (d : Nat) (url : String)
    (parsed : Option Observation) (b : Bool) (e : NotifyEvent)
    (h : (stepItem s d url parsed b).2.2 = some e) :
    e.url = url ∧ ∃ obs old, parsed = some obs ∧ Store.lookup s url = some old ∧
      obs.price < old.price ∧ e.oldPrice = old.price ∧ e.newPrice = obs.price := by
  cases parsed with
  | none => simp [stepItem] at h
  | some obs =>
    unfold stepItem at h
    cases hlk : Store.lookup s url with
    | none => rw [hlk] at h; simp at h
    | some old =>
      rw [hlk] at h
      simp only [] at h
      by_cases hlt : obs.price < old.price
      · rw [if_pos hlt] at h
        have h2 := Option.some.inj h
        rw [← h2]
        exact ⟨rfl, obs, old, rfl, hlk ▸ rfl, hlt, rfl, rfl⟩
      · rw [if_neg hlt] at h
        simp at h

theorem stepItem_event_iff (s : Store) (d : Nat) (url : String) (obs : Observation)
    (b : Bool) :
    (stepItem s d url (some obs) b).2.2.isSome = true ↔
      ∃ old, Store.lookup s url = some old ∧ obs.price < old.price := by
  unfold stepItem
  cases hlk : Store.lookup s url with
  | none => simp
  | some old =>
    by_cases hlt : obs.price < old.price
    · simp [hlt]
    · simp [hlt]

theorem stepItem_fst_indep (s : Store) (d : Nat) (url : String)
    (parsed : Option Observation) (b b' : Bool) :
    (stepItem s d url parsed b).1 = (stepItem s d url parsed b').1 := by
  cases parsed with
  | none => rfl
  | some obs =>
    unfold stepItem
    cases Store.lookup s url with
    | none => rfl
    | some old =>
      by_cases hlt : obs.price < old.price
      · simp [hlt]
      · simp [hlt]

theorem stepItem_drops_indep (s : Store) (d : Nat) (url : String)
    (parsed : Option Observation) (b b' : Bool) :
    (stepItem s d url parsed b).2.1 = (stepItem s d url parsed b').2.1 := by
  cases parsed with
  | none => rfl
  | some obs =>
    unfold stepItem
    cases Store.lookup s url with
    | none => rfl
    | some old =>
      by_cases hlt : obs.price < old.price
      · simp [hlt]
      · simp [hlt]

/-! ### Lemmas about the batch loop -/

theorem runItems_nil (urls : List String) (f : Nat → Nat → FetchOutcome) (nf : Nat → Bool)
    (now : Nat) (s : Store) (d : Nat) (log : List NotifyEvent) :
    runItems urls f nf now [] s d log = (s, d, log) := rfl

theorem runItems_cons (urls : List String) (f : Nat → Nat → FetchOutcome) (nf : Nat → Bool)
    (now i : Nat) (rest : List Nat) (s : Store) (d : Nat) (log : List NotifyEvent) :
    runItems urls f nf now (i :: rest) s d log =
      runItems urls f nf now rest
        (stepItem s d (urls.getD i "")
          ((parseAmazonPage (urls.getD i "") (f i) now 0).result) (nf log.length)).1
        (stepItem s d (urls.getD i "")
          ((parseAmazonPage (urls.getD i "") (f i) now 0).result) (nf log.length)).2.1
        (log ++ (stepItem s d (urls.getD i "")
          ((parseAmazonPage (urls.getD i "") (f i) now 0).result) (nf log.length)).2.2.toList) :=
  rfl

theorem runItems_frame (urls : List String) (f : Nat → Nat → FetchOutcome) (nf : Nat → Bool)
    (now : Nat) (u : String) :
    ∀ (idxs : List Nat) (s : Store) (d : Nat) (log : List NotifyEvent),
      (∀ j ∈ idxs, urls.getD j "" = u →
        (parseAmazonPage (urls.getD j "") (f j) now 0).result = none) →
      Store.lookup (runItems urls f nf now idxs s d log).1 u = Store.lookup s u ∧
      (∀ e ∈ (runItems urls f nf now idxs s d log).2.2, e ∈ log ∨ e.url ≠ u) := by
  intro idxs
  induction idxs with
  | nil => intro s d log _; exact ⟨rfl, fun e he => Or.inl he⟩
  | cons i rest ih =>
    intro s d log hnone
    rw [runItems_cons]
    set url := urls.getD i "" with hurl
    set parsed := (parseAmazonPage url (f i) now 0).result with hparsed
    set out := stepItem s d url parsed (nf log.length) with hout
    have hrest : ∀ j ∈ rest, urls.getD j "" = u →
        (parseAmazonPage (urls.getD j "") (f j) now 0).result = none :=
      fun j hj => hnone j (List.mem_cons_of_mem i hj)
    obtain ⟨ihl, ihe⟩ := ih out.1 out.2.1 (log ++ out.2.2.toList) hrest
    constructor
    · rw [ihl]
      by_cases hu : u = url
      · have hpn : parsed = none :=
          hnone i (List.mem_cons_self i rest) (hurl.symm.trans hu.symm)
        rw [hpn] at hout
        rw [hout, hu, stepItem_none]
      · exact stepItem_lookup_ne s d url u parsed (nf log.length) hu
    · intro e he
      rcases ihe e he with hin | hne
      · rcases List.mem_append.mp hin with hl | hev
        · exact Or.inl hl
        · right
          cases hev2 : out.2.2 with
          | none => rw [hev2] at hev; simp at hev
          | some ev =>
            rw [hev2] at hev
            simp only [Option.toList_some, List.mem_singleton] at hev
            subst hev
            obtain ⟨heu, hrest2⟩ := stepItem_event s d url parsed (nf log.length) e hev2
            rw [heu]
            intro hcon
            obtain ⟨obs, old, hpo, _⟩ := hrest2
            have hpar := hnone i (List.mem_cons_self i rest) (hurl.symm.trans hcon)
            rw [← hurl] at hpar
            rw [hparsed, hpar] at hpo
            exact Option.noConfusion hpo
      · exact Or.inr hne

theorem runItems_price_pos (urls : List String) (f : Nat → Nat → FetchOutcome)
    (nf : Nat → Bool) (now : Nat) :
    ∀ (idxs : List Nat) (s : Store) (d : Nat) (log : List NotifyEvent) (u : String)
      (o : Observation),
      Store.lookup (runItems urls f nf now idxs s d log).1 u = some o →
      Store.lookup s u = some o ∨ 0 < o.price := by
  intro idxs
  induction idxs with
  | nil => intro s d log u o h; exact Or.inl h
  | cons i rest ih =>
    intro s d log u o h
    rw [runItems_cons] at h
    set url := urls.getD i "" with hurl
    set parsed := (parseAmazonPage url (f i) now 0).result with hparsed
    set out := stepItem s d url parsed (nf log.length) with hout
    rcases ih out.1 out.2.1 (log ++ out.2.2.toList) u o h with hmid | hpos
    · cases hp : parsed with
      | none =>
        rw [hp] at hout
        rw [hout] at hmid
        exact Or.inl hmid
      | some obs =>
        by_cases hu : u = url
        · right
          rw [hp] at hout
          rw [hout, hu] at hmid
          rw [stepItem_lookup_self s d url obs (nf log.length)] at hmid
          have h2 := Option.some.inj hmid
          rw [← h2]
          exact parseAmazonPage_result_pos url (f i) now 0 obs (by rw [← hparsed]; exact hp)
        · rw [stepItem_lookup_ne s d url u parsed (nf log.length) hu] at hmid
          exact Or.inl hmid
    · exact Or.inr hpos

theorem runItems_indep (urls : List String) (f : Nat → Nat → FetchOutcome)
    (nf nf' : Nat → Bool) (now : Nat) :
    ∀ (idxs : List Nat) (s : Store) (d : Nat) (log log' : List NotifyEvent),
      (runItems urls f nf now idxs s d log).1 = (runItems urls f nf' now idxs s d log').1 ∧
      (runItems urls f nf now idxs s d log).2.1 =
        (runItems urls f nf' now idxs s d log').2.1 := by
  intro idxs
  induction idxs with
  | nil => intro s d log log'; exact ⟨rfl, rfl⟩
  | cons i rest ih =>
    intro s d log log'
    rw [runItems_cons, runItems_cons]
    rw [stepItem_fst_indep s d (urls.getD i "") _ (nf log.length) (nf' log'.length),
      stepItem_drops_indep s d (urls.getD i "") _ (nf log.length) (nf' log'.length)]
    exact ih _ _ _ _

theorem runItems_unique (urls : List String) (f : Nat → Nat → FetchOutcome)
    (nf : Nat → Bool) (now : Nat) (u : String) (i : Nat) (obs : Observation) :
    ∀ (idxs : List Nat) (s : Store) (d : Nat) (log : List NotifyEvent),
      idxs.Nodup → i ∈ idxs → urls.getD i "" = u →
      (∀ j ∈ idxs, urls.getD j "" = u → j = i) →
      (parseAmazonPage u (f i) now 0).result = some obs →
      Store.lookup (runItems urls f nf now idxs s d log).1 u = some obs ∧
      ∀ e ∈ (runItems urls f nf now idxs s d log).2.2, e.url = u →
        e ∈ log ∨ ∃ old, Store.lookup s u = some old ∧ obs.price < old.price := by
  intro idxs
  induction idxs with
  | nil => intro s d log _ hi; exact absurd hi (List.not_mem_nil i)
  | cons j rest ih =>
    intro s d log hnd hi hu huniq hp
    rw [runItems_cons]
    by_cases hji : j = i
    · subst hji
      rw [hu]
      rw [hp]
      have hrestu : ∀ k ∈ rest, urls.getD k "" = u →
          (parseAmazonPage (urls.getD k "") (f k) now 0).result = none := by
        intro k hk hku
        exfalso
        have hkj := huniq k (List.mem_cons_of_mem j hk) hku
        rw [hkj] at hk
        exact (List.nodup_cons.mp hnd).1 hk
      obtain ⟨fl, fe⟩ := runItems_frame urls f nf now u rest
        (stepItem s d u (some obs) (nf log.length)).1
        (stepItem s d u (some obs) (nf log.length)).2.1
        (log ++ (stepItem s d u (some obs) (nf log.length)).2.2.toList) hrestu
      refine ⟨?_, ?_⟩
      · rw [fl]
        exact stepItem_lookup_self s d u obs (nf log.length)
      · intro e he heu
        rcases fe e he with hin | hne
        · rcases List.mem_append.mp hin with hl | hev
          · exact Or.inl hl
          · right
            cases hev2 : (stepItem s d u (some obs) (nf log.length)).2.2 with
            | none => rw [hev2] at hev; simp at hev
            | some ev =>
              rw [hev2] at hev
              simp only [Option.toList_some, List.mem_singleton] at hev
              subst hev
              obtain ⟨_, obs2, old, hobs2, hlk2, hlt2, _, _⟩ :=
                stepItem_event s d u (some obs) (nf log.length) e hev2
              have hoe := Option.some.inj hobs2
              rw [← hoe] at hlt2
              exact ⟨old, hlk2, hlt2⟩
        · exact absurd heu hne
    · have hju : urls.getD j "" ≠ u := by
        intro hh
        exact hji (huniq j (List.mem_cons_self j rest) hh)
      have hirest : i ∈ rest := by
        rcases List.mem_cons.mp hi with hij | hr
        · exact absurd hij.symm hji
        · exact hr
      obtain ⟨il, ie⟩ := ih
        (stepItem s d (urls.getD j "")
          ((parseAmazonPage (urls.getD j "") (f j) now 0).result) (nf log.length)).1
        (stepItem s d (urls.getD j "")
          ((parseAmazonPage (urls.getD j "") (f j) now 0).result) (nf log.length)).2.1
        (log ++ (stepItem s d (urls.getD j "")
          ((parseAmazonPage (urls.getD j "") (f j) now 0).result) (nf log.length)).2.2.toList)
        (List.nodup_cons.mp hnd).2 hirest hu
        (fun k hk hku => huniq k (List.mem_cons_of_mem j hk) hku) hp
      refine ⟨il, ?_⟩
      intro e he heu
      rcases ie e he heu with hin | hold
      · rcases List.mem_append.mp hin with hl | hev
        · exact Or.inl hl
        · exfalso
          cases hev2 : (stepItem s d (urls.getD j "")
              ((parseAmazonPage (urls.getD j "") (f j) now 0).result) (nf log.length)).2.2 with
          | none => rw [hev2] at hev; simp at hev
          | some ev =>
            rw [hev2] at hev
            simp only [Option.toList_some, List.mem_singleton] at hev
            subst hev
            obtain ⟨heurl, _⟩ := stepItem_event s d (urls.getD j "")
              ((parseAmazonPage (urls.getD j "") (f j) now 0).result) (nf log.length) e hev2
            rw [heurl] at heu
            exact hju heu
      · right
        obtain ⟨old, holk, holt⟩ := hold
        rw [stepItem_lookup_ne s d (urls.getD j "") u
          ((parseAmazonPage (urls.getD j "") (f j) now 0).result) (nf log.length)
          (fun hh => hju hh.symm)] at holk
        exact ⟨old, holk, holt⟩

/-! ### Lemmas about the cursor cycle -/

theorem ceil_div_eq (n b : Nat) (hn : 1 ≤ n) (hb : 1 ≤ b) :
    (n + b - 1) / b = (n - 1) / b + 1 := by
  have h : n + b - 1 = (n - 1) + b := by omega
  rw [h, Nat.add_div_right _ (by omega : 0 < b)]

theorem ceil_mul_ge (n b : Nat) (hn : 1 ≤ n) (hb : 1 ≤ b) :
    n ≤ (n + b - 1) / b * b := by
  have e1 := Nat.div_add_mod (n + b - 1) b
  have e2 : (n + b - 1) % b < b := Nat.mod_lt _ (by omega)
  have e3 : (n + b - 1) / b * b = b * ((n + b - 1) / b) := Nat.mul_comm _ _
  omega

theorem nextCursor_lt (n b start : Nat) (h : start + b < n) :
    nextCursor n b start = start + b := by
  unfold nextCursor
  have hmin : min (start + b) n = start + b := Nat.min_eq_left (le_of_lt h)
  simp only [hmin]
  rw [if_neg (by omega : ¬ n ≤ start + b)]

theorem nextCursor_ge (n b start : Nat) (h : n ≤ start + b) :
    nextCursor n b start = 0 := by
  unfold nextCursor
  have hmin : min (start + b) n = n := Nat.min_eq_right h
  simp only [hmin]
  rw [if_pos (le_refl n)]

theorem cursorIter_eq_mul (n b : Nat) (hn : 1 ≤ n) (hb : 1 ≤ b) :
    ∀ k, k < (n + b - 1) / b → cursorIter n b k = k * b := by
  intro k
  induction k with
  | zero => intro _; simp [cursorIter]
  | succ k ih =>
    intro hk
    have hceil := ceil_div_eq n b hn hb
    have hk1 : k + 1 ≤ (n - 1) / b := by omega
    have hle : (k + 1) * b ≤ (n - 1) / b * b := Nat.mul_le_mul_right b hk1
    have hdb : (n - 1) / b * b ≤ n - 1 := Nat.div_mul_le_self _ _
    have hsm : (k + 1) * b = k * b + b := Nat.succ_mul k b
    have hlt : k * b + b < n := by omega
    have hk' : k < (n + b - 1) / b := by omega
    show nextCursor n b (cursorIter n b k) = (k + 1) * b
    rw [ih hk', nextCursor_lt n b (k * b) hlt, hsm]

theorem cursorIter_ceil_eq_zero (n b : Nat) (hn : 1 ≤ n) (hb : 1 ≤ b) :
    cursorIter n b ((n + b - 1) / b) = 0 := by
  have hceil := ceil_div_eq n b hn hb
  have hge := ceil_mul_ge n b hn hb
  rw [hceil]
  show nextCursor n b (cursorIter n b ((n - 1) / b)) = 0
  have hm : (n - 1) / b < (n + b - 1) / b := by omega
  rw [cursorIter_eq_mul n b hn hb ((n - 1) / b) hm]
  apply nextCursor_ge
  have hsm : ((n - 1) / b + 1) * b = (n - 1) / b * b + b := Nat.succ_mul _ b
  have : (n + b - 1) / b * b = ((n - 1) / b + 1) * b := by rw [hceil]
  omega

theorem batch_window_unique (n b : Nat) (hn : 1 ≤ n) (hb : 1 ≤ b) (i : Nat) (hi : i < n) :
    ∃! k, k < (n + b - 1) / b ∧ cursorIter n b k ≤ i ∧
      i < min (cursorIter n b k + b) n := by
  have hb0 : 0 < b := by omega
  have hklt : i / b < (n + b - 1) / b := by
    by_contra hcon
    push_neg at hcon
    have h1 : (n + b - 1) / b * b ≤ i / b * b := Nat.mul_le_mul_right b hcon
    have h2 : i / b * b ≤ i := Nat.div_mul_le_self i b
    have h3 := ceil_mul_ge n b hn hb
    omega
  have hlo : i / b * b ≤ i := Nat.div_mul_le_self i b
  have hhi : i < i / b * b + b := by
    have e1 := Nat.div_add_mod i b
    have e2 : i % b < b := Nat.mod_lt _ hb0
    have e3 : i / b * b = b * (i / b) := Nat.mul_comm _ _
    omega
  refine ⟨i / b, ⟨hklt, ?_, ?_⟩, ?_⟩
  · rw [cursorIter_eq_mul n b hn hb _ hklt]
    exact hlo
  · rw [cursorIter_eq_mul n b hn hb _ hklt]
    exact lt_min (by omega) hi
  · intro y hy
    obtain ⟨hy1, hy2, hy3⟩ := hy
    rw [cursorIter_eq_mul n b hn hb y hy1] at hy2 hy3
    have hy4 : i < y * b + b := lt_of_lt_of_le hy3 (min_le_left _ _)
    have hy5 : i < (y + 1) * b := by
      have h6 : (y + 1) * b = y * b + b := by rw [Nat.add_mul, Nat.one_mul]
      omega
    exact (Nat.div_eq_of_lt_le hy2 hy5).symm

/-! ### Branch equations of processBatch -/

theorem processBatch_guard (st : TrackerState) (env : BatchEnv)
    (h : st.isRunning = true) :
    processBatch st env =
      { prices := st.prices, drops := st.drops, isRunning := st.isRunning,
        listRead := false, savedPrices := none, savedCursor := none,
        notifyLog := [], result := Except.ok () } := by
  simp [processBatch, h]

theorem processBatch_empty (st : TrackerState) (env : BatchEnv)
    (hrun : st.isRunning = false) (he : (readBookUrls env.books).isEmpty = true) :
    processBatch st env =
      { prices := st.prices, drops := st.drops, isRunning := false,
        listRead := true, savedPrices := none, savedCursor := none,
        notifyLog := [], result := Except.ok () } := by
  simp [processBatch, hrun, he]

theorem processBatch_main (st : TrackerState) (env : BatchEnv)
    (hrun : st.isRunning = false) (he : (readBookUrls env.books).isEmpty = false) :
    processBatch st env =
      { prices := (runItems (readBookUrls env.books) env.fetch env.notifyFails env.now
          (batchRange (readBookUrls env.books).length (env.progress.getD 0))
          st.prices st.drops []).1,
        drops := (runItems (readBookUrls env.books) env.fetch env.notifyFails env.now
          (batchRange (readBookUrls env.books).length (env.progress.getD 0))
          st.prices st.drops []).2.1,
        isRunning := false,
        listRead := true,
        savedPrices := some (runItems (readBookUrls env.books) env.fetch env.notifyFails
          env.now (batchRange (readBookUrls env.books).length (env.progress.getD 0))
          st.prices st.drops []).1,
        savedCursor := some (nextCursor (readBookUrls env.books).length CONFIG.batchSize
          (env.progress.getD 0)),
        notifyLog := (runItems (readBookUrls env.books) env.fetch env.notifyFails env.now
          (batchRange (readBookUrls env.books).length (env.progress.getD 0))
          st.prices st.drops []).2.2,
        result := Except.ok () } := by
  simp only [processBatch, hrun, Bool.false_eq_true, if_false, he, nextCursor]

theorem parseAmazonPage_allErr (url : String) (f : Nat → FetchOutcome) (now : Nat)
    (hfail : ∀ k, f k = FetchOutcome.err) :
    (parseAmazonPage url f now 0).result = none ∧
    (parseAmazonPage url f now 0).attempts = CONFIG.maxRetries + 1 := by
  have hp := parseAttempt_allErr url f now hfail (CONFIG.maxRetries - 0) 0
  refine ⟨hp.1, ?_⟩
  show (parseAttempt url f now (CONFIG.maxRetries - 0) 0).attempts = CONFIG.maxRetries + 1
  rw [hp.2, Nat.sub_zero]

/-! ### The claims -/

/-- C1: a batch that actually runs persists the cursor according to the
rule endIndex = min(start + batchSize, itemCount), writing 0 when
endIndex reached the item count and endIndex otherwise; and for every
item count n ≥ 1 and batch size b ≥ 1 that update rule, iterated from
cursor 0, covers every index i < n in exactly one of the first
ceil(n/b) batch windows, and the cursor is back at 0 after ceil(n/b)
batches. -/
theorem claim_C1 (st : TrackerState) (env : BatchEnv) (n b : Nat)
    (hrun : st.isRunning = false) (hne : (readBookUrls env.books).isEmpty = false)
    (hn : 1 ≤ n) (hb : 1 ≤ b) :
    (processBatch st env).savedCursor =
      some (nextCursor (readBookUrls env.books).length CONFIG.batchSize
        (env.progress.getD 0)) ∧
    cursorIter n b ((n + b - 1) / b) = 0 ∧
    ∀ i, i < n → ∃! k, k < (n + b - 1) / b ∧ cursorIter n b k ≤ i ∧
      i < min (cursorIter n b k + b) n := by
  refine ⟨?_, cursorIter_ceil_eq_zero n b hn hb,
    fun i hi => batch_window_unique n b hn hb i hi⟩
  rw [processBatch_main st env hrun hne]

/-- C2: an item whose fetch throws on every attempt is fetched exactly
maxRetries + 1 = 4 times, parseAmazonPage then returns the null
sentinel, and a batch in which every in-slice occurrence of an
identifier always errors leaves the store entry of that identifier
exactly as it was. -/
theorem claim_C2 (url : String) (oracle : Nat → FetchOutcome) (now : Nat)
    (st : TrackerState) (env : BatchEnv) (u : String)
    (hfail : ∀ k, oracle k = FetchOutcome.err)
    (hbatch : ∀ j ∈ batchRange (readBookUrls env.books).length (env.progress.getD 0),
      (readBookUrls env.books).getD j "" = u → ∀ k, env.fetch j k = FetchOutcome.err) :
    (parseAmazonPage url oracle now 0).attempts = CONFIG.maxRetries + 1 ∧
    (parseAmazonPage url oracle now 0).result = none ∧
    Store.lookup (processBatch st env).prices u = Store.lookup st.prices u := by
  obtain ⟨hres, hatt⟩ := parseAmazonPage_allErr url oracle now hfail
  refine ⟨hatt, hres, ?_⟩
  by_cases hr : st.isRunning = true
  · rw [processBatch_guard st env hr]
  · have hr' : st.isRunning = false := by
      cases hx : st.isRunning
      · rfl
      · exact absurd hx hr
    cases he : (readBookUrls env.books).isEmpty with
    | true => rw [processBatch_empty st env hr' he]
    | false =>
      rw [processBatch_main st env hr' he]
      exact (runItems_frame (readBookUrls env.books) env.fetch env.notifyFails env.now u
        (batchRange (readBookUrls env.books).length (env.progress.getD 0))
        st.prices st.drops []
        (fun j hj hju =>
          (parseAmazonPage_allErr ((readBookUrls env.books).getD j "") (env.fetch j) env.now
            (hbatch j hj hju)).1)).1

/-- C3 counterexample: an extractor that signals "no price found" at
retry count 0 < maxRetries makes parseAmazonPage return null after a
single fetch attempt with zero backoff wait — the function does not
retry, contradicting the claim that the no-price case is backed off and
retried like a thrown fetch error. -/
theorem claim_C3_counterexample :
    0 < CONFIG.maxRetries ∧
    (fun _ : Nat => FetchOutcome.page none "T") 0 = FetchOutcome.page none "T" ∧
    parseAmazonPage "u" (fun _ => FetchOutcome.page none "T") 0 0 =
      { result := none, attempts := 1, waited := 0 } ∧
    ¬ 2 ≤ (parseAmazonPage "u" (fun _ => FetchOutcome.page none "T") 0 0).attempts ∧
    ¬ 5000 ≤ (parseAmazonPage "u" (fun _ => FetchOutcome.page none "T") 0 0).waited :=
  ⟨by decide, rfl, rfl, by decide, by decide⟩

/-- C3 amended: when the extractor signals "no price found" the
operation returns the null sentinel immediately — one fetch attempt, no
backoff, no recursion — while a thrown fetch error at attempt
r < maxRetries does wait 2^r * 5000 ms and recurse with attempt r + 1. -/
theorem claim_C3_amended (url t : String) (f g : Nat → FetchOutcome) (now r : Nat)
    (hpage : f r = FetchOutcome.page none t)
    (herr : g r = FetchOutcome.err) (hr : r < CONFIG.maxRetries) :
    parseAmazonPage url f now r = { result := none, attempts := 1, waited := 0 } ∧
    (parseAmazonPage url g now r).result = (parseAmazonPage url g now (r + 1)).result ∧
    (parseAmazonPage url g now r).attempts =
      (parseAmazonPage url g now (r + 1)).attempts + 1 ∧
    (parseAmazonPage url g now r).waited =
      2 ^ r * 5000 + (parseAmazonPage url g now (r + 1)).waited := by
  have hmr : CONFIG.maxRetries = 3 := rfl
  have hgas : CONFIG.maxRetries - r = (CONFIG.maxRetries - (r + 1)) + 1 := by omega
  have key : parseAmazonPage url g now r =
      { result := (parseAmazonPage url g now (r + 1)).result,
        attempts := (parseAmazonPage url g now (r + 1)).attempts + 1,
        waited := 2 ^ r * 5000 + (parseAmazonPage url g now (r + 1)).waited } := by
    rw [parseAmazonPage, parseAmazonPage, hgas]
    exact parseAttempt_err_succ url g now (CONFIG.maxRetries - (r + 1)) r herr
  refine ⟨?_, by rw [key], by rw [key], by rw [key]⟩
  rw [parseAmazonPage, parseAttempt_page url t f now (CONFIG.maxRetries - r) r none hpage]
  rfl

/-- C4: calling processBatch while a batch is already in flight returns
at once: books.txt is not read, the in-memory store and counters are
untouched, no notification fires, and neither prices.json nor
progress.json is written. -/
theorem claim_C4 (st : TrackerState) (env : BatchEnv) (h : st.isRunning = true) :
    processBatch st env =
      { prices := st.prices, drops := st.drops, isRunning := st.isRunning,
        listRead := false, savedPrices := none, savedCursor := none,
        notifyLog := [], result := Except.ok () } :=
  processBatch_guard st env h

/-- C5: for a successfully extracted item, a notification event exists
exactly when a prior observation is stored and the new price is
strictly lower (so a first observation never notifies); the store entry
is overwritten with the new observation in every case; and neither the
per-item store and drop counter nor the batch-level durable outputs
depend on whether the Telegram send rejects. -/
theorem claim_C5 (prices : Store) (drops : Nat) (url : String) (obs : Observation)
    (b b' : Bool) :
    ((stepItem prices drops url (some obs) b).2.2.isSome = true ↔
      ∃ old, Store.lookup prices url = some old ∧ obs.price < old.price) ∧
    Store.lookup (stepItem prices drops url (some obs) b).1 url = some obs ∧
    (stepItem prices drops url (some obs) b).1 =
      (stepItem prices drops url (some obs) b').1 ∧
    (stepItem prices drops url (some obs) b).2.1 =
      (stepItem prices drops url (some obs) b').2.1 ∧
    ∀ (books : Option String) (prog : Option Nat) (ft : Nat → Nat → FetchOutcome)
      (now : Nat) (nf nf' : Nat → Bool) (st : TrackerState),
      (processBatch st ⟨books, prog, ft, nf, now⟩).prices =
        (processBatch st ⟨books, prog, ft, nf', now⟩).prices ∧
      (processBatch st ⟨books, prog, ft, nf, now⟩).savedPrices =
        (processBatch st ⟨books, prog, ft, nf', now⟩).savedPrices ∧
      (processBatch st ⟨books, prog, ft, nf, now⟩).savedCursor =
        (processBatch st ⟨books, prog, ft, nf', now⟩).savedCursor ∧
      (processBatch st ⟨books, prog, ft, nf, now⟩).result =
        (processBatch st ⟨books, prog, ft, nf', now⟩).result := by
  refine ⟨stepItem_event_iff prices drops url obs b,
    stepItem_lookup_self prices drops url obs b,
    stepItem_fst_indep prices drops url (some obs) b b',
    stepItem_drops_indep prices drops url (some obs) b b', ?_⟩
  intro books prog ft now nf nf' st
  by_cases hr : st.isRunning = true
  · rw [processBatch_guard st _ hr, processBatch_guard st _ hr]
    exact ⟨rfl, rfl, rfl, rfl⟩
  · have hr' : st.isRunning = false := by
      cases hx : st.isRunning
      · rfl
      · exact absurd hx hr
    cases he : (readBookUrls books).isEmpty with
    | true =>
      rw [processBatch_empty st _ hr' he, processBatch_empty st _ hr' he]
      exact ⟨rfl, rfl, rfl, rfl⟩
    | false =>
      rw [processBatch_main st _ hr' he, processBatch_main st _ hr' he]
      obtain ⟨hst, _⟩ := runItems_indep (readBookUrls books) ft nf nf' now
        (batchRange (readBookUrls books).length (prog.getD 0)) st.prices st.drops [] []
      exact ⟨hst, by rw [hst], rfl, rfl⟩

/-- C6: if an item with a stored observation from the previous batch is
extracted in the next batch with the same price (and its identifier
occurs only at one slice position), then that batch — run on the state
the previous batch produced — fires no notification for the item and
leaves the stored price unchanged (the rest of the observation, such as
the timestamp, may differ). -/
theorem claim_C6 (st st2 : TrackerState) (env1 env2 : BatchEnv) (u : String)
    (o1 obs2 : Observation) (i : Nat)
    (hst2 : st2 = { prices := (processBatch st env1).prices,
                    drops := (processBatch st env1).drops, isRunning := false })
    (h1 : Store.lookup (processBatch st env1).prices u = some o1)
    (hi : i ∈ batchRange (readBookUrls env2.books).length (env2.progress.getD 0))
    (hu : (readBookUrls env2.books).getD i "" = u)
    (huniq : ∀ j ∈ batchRange (readBookUrls env2.books).length (env2.progress.getD 0),
      (readBookUrls env2.books).getD j "" = u → j = i)
    (hp : (parseAmazonPage u (env2.fetch i) env2.now 0).result = some obs2)
    (heq : obs2.price = o1.price) :
    (processBatch st2 env2).notifyLog.filter (fun e => e.url == u) = [] ∧
    (Store.lookup (processBatch st2 env2).prices u).map Observation.price =
      some o1.price := by
  have hrun2 : st2.isRunning = false := by rw [hst2]
  have hlen : 0 < (readBookUrls env2.books).length := by
    unfold batchRange at hi
    have hm := List.mem_range'_1.mp hi
    omega
  have hne : (readBookUrls env2.books).isEmpty = false := by
    cases hc : readBookUrls env2.books with
    | nil => rw [hc] at hlen; simp at hlen
    | cons a t => rfl
  have hnd : (batchRange (readBookUrls env2.books).length (env2.progress.getD 0)).Nodup := by
    unfold batchRange
    exact List.nodup_range' _ _
  rw [processBatch_main st2 env2 hrun2 hne]
  obtain ⟨hl, hev⟩ := runItems_unique (readBookUrls env2.books) env2.fetch env2.notifyFails
    env2.now u i obs2
    (batchRange (readBookUrls env2.books).length (env2.progress.getD 0))
    st2.prices st2.drops [] hnd hi hu huniq hp
  constructor
  · rw [List.filter_eq_nil_iff]
    intro e he
    simp only [beq_iff_eq]
    intro heu
    rcases hev e he heu with hinnil | ⟨old, holk, holt⟩
    · exact (List.not_mem_nil e) hinnil
    · rw [hst2] at holk
      simp only [] at holk
      rw [h1] at holk
      have ho := Option.some.inj holk
      rw [← ho] at holt
      rw [heq] at holt
      exact lt_irrefl _ holt
  · rw [hl]
    simp [heq]

/-- C7 counterexample: when the books.txt read fails (books = none),
processBatch resolves normally with Except.ok — readBookUrls swallowed
the error into an empty list — so the failure is not surfaced to the
caller, contradicting the claim; the frame part (store and cursor
untouched, nothing persisted) does hold. -/
theorem claim_C7_counterexample :
    (processBatch { prices := [], drops := 0, isRunning := false }
      { books := none, progress := none, fetch := fun _ _ => FetchOutcome.err,
        notifyFails := fun _ => false, now := 0 }).result = Except.ok () ∧
    (processBatch { prices := [], drops := 0, isRunning := false }
      { books := none, progress := none, fetch := fun _ _ => FetchOutcome.err,
        notifyFails := fun _ => false, now := 0 }).savedPrices = none ∧
    (processBatch { prices := [], drops := 0, isRunning := false }
      { books := none, progress := none, fetch := fun _ _ => FetchOutcome.err,
        notifyFails := fun _ => false, now := 0 }).savedCursor = none ∧
    (processBatch { prices := [], drops := 0, isRunning := false }
      { books := none, progress := none, fetch := fun _ _ => FetchOutcome.err,
        notifyFails := fun _ => false, now := 0 }).prices = [] :=
  ⟨rfl, rfl, rfl, rfl⟩

/-- C7 amended: a failed read of the item-list source is caught inside
readBookUrls, which logs and returns the empty list; the batch then
aborts before touching anything — in-memory store and drop counter
unchanged, neither durable file written — but the error is swallowed
rather than surfaced: the processBatch promise resolves normally on
this and on every other input (per-item failures included), so the
caller cannot distinguish a read failure from an empty list. -/
theorem claim_C7_amended (st : TrackerState) (env : BatchEnv)
    (hrun : st.isRunning = false) (hb : env.books = none) :
    readBookUrls env.books = [] ∧
    (processBatch st env).prices = st.prices ∧
    (processBatch st env).drops = st.drops ∧
    (processBatch st env).savedPrices = none ∧
    (processBatch st env).savedCursor = none ∧
    (processBatch st env).notifyLog = [] ∧
    (processBatch st env).result = Except.ok () ∧
    ∀ (st' : TrackerState) (env' : BatchEnv),
      (processBatch st' env').result = Except.ok () := by
  have hempty : (readBookUrls env.books).isEmpty = true := by rw [hb]; rfl
  rw [processBatch_empty st env hrun hempty]
  refine ⟨by rw [hb]; rfl, rfl, rfl, rfl, rfl, rfl, rfl, ?_⟩
  intro st' env'
  by_cases hr : st'.isRunning = true
  · rw [processBatch_guard st' env' hr]
  · have hr' : st'.isRunning = false := by
      cases hx : st'.isRunning
      · rfl
      · exact absurd hx hr
    cases he : (readBookUrls env'.books).isEmpty with
    | true => rw [processBatch_empty st' env' hr' he]
    | false => rw [processBatch_main st' env' hr' he]

/-- C8 counterexample: saveJSON is a single direct fs.writeFile with no
temp-file-and-rename, and a crash mid-write can leave the file holding
"ne" — a strict prefix of the new contents "new" that is neither the
old contents nor the new ones — so the persist is not atomic from a
reader's perspective. -/
theorem claim_C8_counterexample :
    saveJSON "prices.json" "new" = [FsOp.writeFile "prices.json" "new"] ∧
    "ne" ∈ saveJSONCrashStates "old" "new" ∧
    ¬ ("ne" = "old" ∨ "ne" = "new") :=
  ⟨rfl, by decide, by decide⟩

/-- C8 amended: each persist is one direct whole-file write — no rename
operation is ever issued — and a crash around the persist can leave the
old contents, the new contents, or any prefix of the new contents
(including an empty file), so the write is not all-or-nothing. -/
theorem claim_C8_amended (file contents oldContents : String) :
    saveJSON file contents = [FsOp.writeFile file contents] ∧
    (∀ op ∈ saveJSON file contents, ∀ src dst, op ≠ FsOp.rename src dst) ∧
    oldContents ∈ saveJSONCrashStates oldContents contents ∧
    "" ∈ saveJSONCrashStates oldContents contents ∧
    contents ∈ saveJSONCrashStates oldContents contents := by
  refine ⟨rfl, ?_, List.mem_cons_self _ _, ?_, ?_⟩
  · intro op hop src dst
    rw [List.mem_singleton.mp hop]
    intro hcon
    exact FsOp.noConfusion hcon
  · exact List.mem_cons.mpr (Or.inr (List.mem_map.mpr
      ⟨0, List.mem_range.mpr (by omega), rfl⟩))
  · refine List.mem_cons.mpr (Or.inr (List.mem_map.mpr
      ⟨contents.data.length, List.mem_range.mpr (by omega), ?_⟩))
    rw [List.take_length]

/-- C9 counterexample: a tracking-list source that repeats the same
line yields a list with a duplicated identifier — readBookUrls performs
no deduplication — contradicting the claim that no two items share an
identifier. -/
theorem claim_C9_counterexample :
    readBookUrls (some "u\nu") = ["u", "u"] ∧
    ¬ (readBookUrls (some "u\nu")).Nodup :=
  ⟨rfl, by decide⟩

theorem splitNl_ne_nil : ∀ cs : List Char, splitNl cs ≠ [] := by
  intro cs
  cases cs with
  | nil => simp [splitNl]
  | cons c rest =>
    unfold splitNl
    cases splitNl rest with
    | nil =>
      by_cases h : c = '\n'
      · simp [h]
      · simp [h]
    | cons a t =>
      by_cases h : c = '\n'
      · simp [h]
      · simp [h]

theorem splitNl_no_nl (cs : List Char) (h : '\n' ∉ cs) : splitNl cs = [cs] := by
  induction cs with
  | nil => rfl
  | cons c rest ih =>
    have hc : ¬ (c = '\n') := fun hh => h (hh ▸ List.mem_cons_self c rest)
    have hrest : '\n' ∉ rest := fun hh => h (List.mem_cons_of_mem c hh)
    unfold splitNl
    rw [ih hrest]
    simp [hc]

theorem splitNl_append_nl (xs ys : List Char) (h : '\n' ∉ xs) :
    splitNl (xs ++ '\n' :: ys) = xs :: splitNl ys := by
  induction xs with
  | nil =>
    simp only [List.nil_append]
    cases hys : splitNl ys with
    | nil => exact absurd hys (splitNl_ne_nil ys)
    | cons a t =>
      conv_lhs => unfold splitNl
      rw [hys]
      simp
  | cons c rest ih =>
    have hc : ¬ (c = '\n') := fun hh => h (hh ▸ List.mem_cons_self c rest)
    have hrest : '\n' ∉ rest := fun hh => h (List.mem_cons_of_mem c hh)
    simp only [List.cons_append]
    conv_lhs => unfold splitNl
    rw [ih hrest]
    simp [hc]

/-- C9 amended: the item list keeps every trimmed, non-empty,
non-"#"-prefixed line in source order without deduplication — every
item of the list is indeed non-empty and does not start with "#", but a
line that occurs twice in the source produces two list items with the
same identifier. -/
theorem claim_C9_amended (u : String)
    (h1 : u.data ≠ []) (h2 : startsWithHash u.data = false)
    (h3 : '\n' ∉ u.data) (h4 : trimChars u.data = u.data) :
    readBookUrls (some (u ++ "\n" ++ u)) = [u, u] ∧
    ∀ (content l : String), l ∈ readBookUrls (some content) →
      l.data ≠ [] ∧ startsWithHash l.data = false := by
  constructor
  · have hd : (u ++ "\n" ++ u).data = u.data ++ '\n' :: u.data := by
      have : (u ++ "\n" ++ u).data = (u.data ++ ['\n']) ++ u.data := rfl
      rw [this, List.append_assoc, List.singleton_append]
    simp only [readBookUrls]
    rw [hd, splitNl_append_nl u.data u.data h3, splitNl_no_nl u.data h3]
    have hemp : u.data.isEmpty = false := by
      cases hc : u.data with
      | nil => exact absurd hc h1
      | cons a t => rfl
    simp [h4, hemp, h2]
  · intro content l hl
    simp only [readBookUrls] at hl
    obtain ⟨cs, hcs, hmk⟩ := List.mem_map.mp hl
    obtain ⟨_, hq⟩ := List.mem_filter.mp hcs
    obtain ⟨hq1, hq2⟩ := Bool.and_eq_true_iff.mp hq
    rw [← hmk]
    constructor
    · intro hcon
      rw [show (String.mk cs).data = cs from rfl] at hcon
      rw [hcon] at hq1
      simp at hq1
    · rw [show (String.mk cs).data = cs from rfl]
      cases hsw : startsWithHash cs
      · rfl
      · rw [hsw] at hq2; simp at hq2

/-- C10: every observation a successful fetch-and-extract returns has a
strictly positive price (NaN and non-positive parses return null), and
hence every store entry after a batch either was already there before
the batch or has a strictly positive price. -/
theorem claim_C10 (url : String) (f : Nat → FetchOutcome) (now rc : Nat)
    (obs : Observation) (st : TrackerState) (env : BatchEnv) (v : String)
    (o : Observation)
    (h1 : (parseAmazonPage url f now rc).result = some obs)
    (h2 : Store.lookup (processBatch st env).prices v = some o) :
    0 < obs.price ∧ (Store.lookup st.prices v = some o ∨ 0 < o.price) := by
  refine ⟨parseAmazonPage_result_pos url f now rc obs h1, ?_⟩
  by_cases hr : st.isRunning = true
  · rw [processBatch_guard st env hr] at h2
    exact Or.inl h2
  · have hr' : st.isRunning = false := by
      cases hx : st.isRunning
      · rfl
      · exact absurd hx hr
    cases he : (readBookUrls env.books).isEmpty with
    | true =>
      rw [processBatch_empty st env hr' he] at h2
      exact Or.inl h2
    | false =>
      rw [processBatch_main st env hr' he] at h2
      exact runItems_price_pos (readBookUrls env.books) env.fetch env.notifyFails env.now
        (batchRange (readBookUrls env.books).length (env.progress.getD 0))
        st.prices st.drops [] v o h2

/-! ### Concrete scenario used by the witnesses -/

/-- Tracker state with an empty store, no drops, not running. -/
def stEmpty : TrackerState := { prices := [], drops := 0, isRunning := false }

/-- Observation produced by extracting price text "7" for item "u1". -/
def obs7 (now : Nat) : Observation :=
  { url := "u1", title := "T", price := 7, currency := "PLN", timestamp := now }

/-- Observation with a previously stored price of 5 for item "u1". -/
def obs5 : Observation :=
  { url := "u1", title := "T", price := 5, currency := "PLN", timestamp := 0 }

/-- Fetch oracle that always serves a page with price text "7". -/
def fetchOk : Nat → Nat → FetchOutcome := fun _ _ => FetchOutcome.page (some "7") "T"

/-- Environment with one tracked item and a always-serving fetch. -/
def envOk : BatchEnv :=
  { books := some "u1", progress := none, fetch := fetchOk,
    notifyFails := fun _ => false, now := 0 }

/-- Environment with one tracked item and an always-erroring fetch. -/
def envErr : BatchEnv :=
  { books := some "u1", progress := none, fetch := fun _ _ => FetchOutcome.err,
    notifyFails := fun _ => false, now := 0 }

/-- Environment whose books.txt read fails. -/
def envNone : BatchEnv :=
  { books := none, progress := none, fetch := fun _ _ => FetchOutcome.err,
    notifyFails := fun _ => false, now := 0 }

/-- Tracker state holding the prior observation obs5 for "u1". -/
def stObs5 : TrackerState := { prices := [("u1", obs5)], drops := 0, isRunning := false }

theorem jsParseFloat_seven : jsParseFloat (cleanPriceChars "7") = some 7 := by
  have hc : cleanPriceChars "7" = ['7'] := rfl
  have ht1 : List.takeWhile Char.isDigit ['7'] = ['7'] := rfl
  have ht2 : List.dropWhile Char.isDigit ['7'] = ([] : List Char) := rfl
  have hdv : digitsVal ['7'] = 7 := rfl
  have hdv0 : digitsVal ([] : List Char) = 0 := rfl
  rw [hc]
  simp only [jsParseFloat, ht1, ht2, hdv, hdv0]
  norm_num
  rfl

theorem parse_seven (f : Nat → FetchOutcome) (now : Nat)
    (hf : f 0 = FetchOutcome.page (some "7") "T") :
    (parseAmazonPage "u1" f now 0).result = some (obs7 now) := by
  rw [parseAmazonPage, parseAttempt_page "u1" "T" f now (CONFIG.maxRetries - 0) 0 (some "7") hf]
  show extractObservation "u1" "T" (some "7") now = some (obs7 now)
  simp only [extractObservation, jsParseFloat_seven]
  norm_num [obs7]

theorem envOk_batch_prices :
    (processBatch stEmpty envOk).prices = [("u1", obs7 0)] := by
  rw [processBatch_main stEmpty envOk rfl rfl]
  have hbr : batchRange (readBookUrls envOk.books).length (envOk.progress.getD 0) = [0] := rfl
  have hurls : readBookUrls envOk.books = ["u1"] := rfl
  rw [hbr, hurls, runItems_cons]
  have hg : (["u1"].getD 0 "") = "u1" := rfl
  rw [hg, parse_seven (envOk.fetch 0) envOk.now rfl]
  rfl

theorem envOk_lookup :
    Store.lookup (processBatch stEmpty envOk).prices "u1" = some (obs7 0) := by
  rw [envOk_batch_prices]
  simp [Store.lookup]

/-! ### Witnesses -/

/-- C1 witness at one tracked item and n = 4, b = 3. -/
theorem claim_C1_witness :
    (processBatch stEmpty envErr).savedCursor =
      some (nextCursor (readBookUrls envErr.books).length CONFIG.batchSize
        (envErr.progress.getD 0)) ∧
    cursorIter 4 3 ((4 + 3 - 1) / 3) = 0 ∧
    ∀ i, i < 4 → ∃! k, k < (4 + 3 - 1) / 3 ∧ cursorIter 4 3 k ≤ i ∧
      i < min (cursorIter 4 3 k + 3) 4 :=
  claim_C1 stEmpty envErr 4 3 rfl rfl (by decide) (by decide)

/-- C2 witness: an always-erroring oracle and a batch whose only item
always errors. -/
theorem claim_C2_witness :
    (parseAmazonPage "u" (fun _ => FetchOutcome.err) 0 0).attempts =
      CONFIG.maxRetries + 1 ∧
    (parseAmazonPage "u" (fun _ => FetchOutcome.err) 0 0).result = none ∧
    Store.lookup (processBatch stObs5 envErr).prices "u1" =
      Store.lookup stObs5.prices "u1" :=
  claim_C2 "u" (fun _ => FetchOutcome.err) 0 stObs5 envErr "u1"
    (fun _ => rfl) (fun _ _ _ _ => rfl)

/-- C3 amended witness at retry count 0. -/
theorem claim_C3_amended_witness :
    parseAmazonPage "u" (fun _ => FetchOutcome.page none "T") 0 0 =
      { result := none, attempts := 1, waited := 0 } ∧
    (parseAmazonPage "u" (fun _ => FetchOutcome.err) 0 0).result =
      (parseAmazonPage "u" (fun _ => FetchOutcome.err) 0 1).result ∧
    (parseAmazonPage "u" (fun _ => FetchOutcome.err) 0 0).attempts =
      (parseAmazonPage "u" (fun _ => FetchOutcome.err) 0 1).attempts + 1 ∧
    (parseAmazonPage "u" (fun _ => FetchOutcome.err) 0 0).waited =
      2 ^ 0 * 5000 + (parseAmazonPage "u" (fun _ => FetchOutcome.err) 0 1).waited :=
  claim_C3_amended "u" "T" (fun _ => FetchOutcome.page none "T")
    (fun _ => FetchOutcome.err) 0 0 rfl rfl (by decide)

/-- C4 witness: a call made while isRunning is true. -/
theorem claim_C4_witness :
    processBatch { prices := [], drops := 0, isRunning := true } envErr =
      { prices := [], drops := 0, isRunning := true, listRead := false,
        savedPrices := none, savedCursor := none, notifyLog := [],
        result := Except.ok () } :=
  claim_C4 { prices := [], drops := 0, isRunning := true } envErr rfl

/-- C6 witness: two consecutive batches both extracting price 7 for
"u1". -/
theorem claim_C6_witness :
    (processBatch { prices := (processBatch stEmpty envOk).prices,
                    drops := (processBatch stEmpty envOk).drops,
                    isRunning := false }
      envOk).notifyLog.filter (fun e => e.url == "u1") = [] ∧
    (Store.lookup (processBatch { prices := (processBatch stEmpty envOk).prices,
                                  drops := (processBatch stEmpty envOk).drops,
                                  isRunning := false }
      envOk).prices "u1").map Observation.price = some ((obs7 0).price) :=
  claim_C6 stEmpty _ envOk envOk "u1" (obs7 0) (obs7 0) 0 rfl
    envOk_lookup (by decide) rfl (by decide)
    (parse_seven (envOk.fetch 0) envOk.now rfl) rfl

/-- C7 amended witness: a batch whose books.txt read fails. -/
theorem claim_C7_amended_witness :
    readBookUrls envNone.books = [] ∧
    (processBatch stEmpty envNone).prices = stEmpty.prices ∧
    (processBatch stEmpty envNone).drops = stEmpty.drops ∧
    (processBatch stEmpty envNone).savedPrices = none ∧
    (processBatch stEmpty envNone).savedCursor = none ∧
    (processBatch stEmpty envNone).notifyLog = [] ∧
    (processBatch stEmpty envNone).result = Except.ok () ∧
    ∀ (st' : TrackerState) (env' : BatchEnv),
      (processBatch st' env').result = Except.ok () :=
  claim_C7_amended stEmpty envNone rfl rfl

/-- C9 amended witness: the line "x" repeated across a newline. -/
theorem claim_C9_amended_witness :
    readBookUrls (some ("x" ++ "\n" ++ "x")) = ["x", "x"] ∧
    ∀ (content l : String), l ∈ readBookUrls (some content) →
      l.data ≠ [] ∧ startsWithHash l.data = false :=
  claim_C9_amended "x" (by decide) rfl (by decide) rfl

/-- C10 witness: a successful extraction of "7" and a batch that leaves
the stored obs5 untouched. -/
theorem claim_C10_witness :
    0 < (obs7 0).price ∧
    (Store.lookup stObs5.prices "u1" = some obs5 ∨ 0 < obs5.price) :=
  claim_C10 "u1" (fetchOk 0) 0 0 (obs7 0) stObs5 envErr "u1" obs5
    (parse_seven (fetchOk 0) 0 rfl) rfl
